import Mathlib

/-!
Verification of `unocss-preset-button-painter` (src/dist/index.js).

The preset consists of four UnoCSS rules (solid / ghost buttons, named or
arbitrary colors), a WCAG-luminance based contrast helper `getContrastColor`,
and (per the specification) a theme flattener.  JavaScript numbers are
embedded as exact values: the integers produced by `parseInt` are `ℤ`
(`Option ℤ` where `NaN` is possible, modelled as `none`), and the luminance
computation is carried out over `ℝ` with `Math.pow` as real exponentiation.
Strings are Lean `String`s; character-level work happens on `List Char`.
-/

/-! ## Character classes used by the JavaScript code -/

/-- Decimal digit, the regex class `\d` = `[0-9]`. -/
def isDigitChar (c : Char) : Bool := decide (48 ≤ c.toNat ∧ c.toNat ≤ 57)

/-- Lower-case ASCII letter, the regex class `[a-z]`. -/
def isLowerAlpha (c : Char) : Bool := decide (97 ≤ c.toNat ∧ c.toNat ≤ 122)

/-- The JavaScript regex class `\s` (also the set trimmed by `parseInt`):
whitespace, line terminators, NBSP, BOM and the Unicode space separators. -/
def isJsWhitespace (c : Char) : Bool := decide
  (c.toNat = 9 ∨ c.toNat = 10 ∨ c.toNat = 11 ∨ c.toNat = 12 ∨ c.toNat = 13 ∨
   c.toNat = 32 ∨ c.toNat = 0xa0 ∨ c.toNat = 0x1680 ∨
   (0x2000 ≤ c.toNat ∧ c.toNat ≤ 0x200a) ∨
   c.toNat = 0x2028 ∨ c.toNat = 0x2029 ∨ c.toNat = 0x202f ∨
   c.toNat = 0x205f ∨ c.toNat = 0x3000 ∨ c.toNat = 0xfeff)

/-- JavaScript line terminators, the characters NOT matched by the regex `.`. -/
def isLineTerm (c : Char) : Bool :=
  decide (c.toNat = 10 ∨ c.toNat = 13 ∨ c.toNat = 0x2028 ∨ c.toNat = 0x2029)

/-- Value of a hexadecimal digit (`0-9`, `a-f`, `A-F`), as accepted by
`parseInt(s, 16)`. -/
def hexDigitVal (c : Char) : Option ℕ :=
  if 48 ≤ c.toNat ∧ c.toNat ≤ 57 then some (c.toNat - 48)
  else if 97 ≤ c.toNat ∧ c.toNat ≤ 102 then some (c.toNat - 87)
  else if 65 ≤ c.toNat ∧ c.toNat ≤ 70 then some (c.toNat - 55)
  else none

/-- Numeric value of a list of decimal digits (the effect of `parseInt` on a
string captured by `(\d+)`, which is always a nonempty run of digits). -/
def decVal (l : List Char) : ℕ := l.foldl (fun a c => 10 * a + (c.toNat - 48)) 0

/-- `parseInt(s, 16)` of ECMAScript, on the character list of `s`:
strip leading whitespace, an optional sign, an optional `0x`/`0X` prefix, then
read the longest prefix of hexadecimal digits; `none` models `NaN`. -/
def jsParseInt16 (s : List Char) : Option ℤ :=
  let s1 := s.dropWhile isJsWhitespace
  let sign : ℤ := if s1.head? = some '-' then -1 else 1
  let s2 := if s1.head? = some '-' ∨ s1.head? = some '+' then s1.tail else s1
  let s3 :=
    if s2.head? = some '0' ∧ (s2.tail.head? = some 'x' ∨ s2.tail.head? = some 'X')
    then s2.tail.tail else s2
  let digs := s3.takeWhile fun c => (hexDigitVal c).isSome
  if digs.isEmpty then none
  else some (sign * digs.foldl (fun acc c => 16 * acc + ((hexDigitVal c).getD 0 : ℤ)) 0)

/-! ## The `rgb()`/`rgba()` regex of `getContrastColor`

The source runs `color.match(/rgba?\((\d+),\s*(\d+),\s*(\d+)/)`: an unanchored
search whose first (leftmost) match yields the three captures.  Because the
character classes involved (`\d`, `\s`, the literal `,`) are pairwise
disjoint, greedy maximal-munch matching coincides with backtracking regex
semantics, so the matcher below is an exact model. -/

/-- Matches `(\d+),\s*(\d+),\s*(\d+)` (the part after `rgba?\(`) at the head
of the list. -/
def rgbTail (l : List Char) : Option (ℕ × ℕ × ℕ) :=
  if (l.takeWhile isDigitChar).isEmpty then none else
  if (l.dropWhile isDigitChar).head? = some ',' then
    let r3 := (l.dropWhile isDigitChar).tail.dropWhile isJsWhitespace
    if (r3.takeWhile isDigitChar).isEmpty then none else
    if (r3.dropWhile isDigitChar).head? = some ',' then
      let r6 := (r3.dropWhile isDigitChar).tail.dropWhile isJsWhitespace
      if (r6.takeWhile isDigitChar).isEmpty then none
      else some (decVal (l.takeWhile isDigitChar), decVal (r3.takeWhile isDigitChar),
        decVal (r6.takeWhile isDigitChar))
    else none
  else none

/-- Matches `rgba?\((\d+),\s*(\d+),\s*(\d+)` at the head of the list. -/
def rgbMatchAt : List Char → Option (ℕ × ℕ × ℕ)
  | 'r' :: 'g' :: 'b' :: 'a' :: '(' :: r => rgbTail r
  | 'r' :: 'g' :: 'b' :: '(' :: r => rgbTail r
  | _ => none

/-- Unanchored search: the first position at which the pattern matches wins,
as with JavaScript `String.prototype.match`. -/
def rgbSearch : List Char → Option (ℕ × ℕ × ℕ)
  | [] => none
  | c :: rest =>
    match rgbMatchAt (c :: rest) with
    | some t => some t
    | none => rgbSearch rest

/-! ## Parsing step of `getContrastColor` -/

/-- The parse step of `getContrastColor` (src/dist/index.js lines 121-144):
`some (r?, g?, b?)` when the three variables are assigned (each `none` inside
models a `NaN` from `parseInt`), `none` when they remain `undefined`. -/
def parseColor (color : List Char) : Option (Option ℤ × Option ℤ × Option ℤ) :=
  match color with
  | '#' :: hex =>
    match hex with
    | [c0, c1, c2] =>
      some (jsParseInt16 [c0, c0], jsParseInt16 [c1, c1], jsParseInt16 [c2, c2])
    | [c0, c1, c2, c3, c4, c5] =>
      some (jsParseInt16 [c0, c1], jsParseInt16 [c2, c3], jsParseInt16 [c4, c5])
    | _ => none
  | 'r' :: 'g' :: 'b' :: rest =>
    match rgbSearch ('r' :: 'g' :: 'b' :: rest) with
    | some (r, g, b) => some (some (r : ℤ), some (g : ℤ), some (b : ℤ))
    | none => none
  | _ => none

/-! ## WCAG luminance and the contrast resolver -/

/-- Gamma correction of one channel (lines 149-151):
`c' = c/255; c' <= 0.03928 ? c'/12.92 : ((c'+0.055)/1.055)^2.4`. -/
noncomputable def gammaCorrect (c : ℤ) : ℝ :=
  if (c : ℝ) / 255 ≤ 0.03928 then ((c : ℝ) / 255) / 12.92
  else (((c : ℝ) / 255 + 0.055) / 1.055) ^ (2.4 : ℝ)

/-- WCAG relative luminance (line 154). -/
noncomputable def luminance (r g b : ℤ) : ℝ :=
  0.2126 * gammaCorrect r + 0.7152 * gammaCorrect g + 0.0722 * gammaCorrect b

open Classical in
/-- `getContrastColor` (lines 119-168), with the two theme-derived fallback
strings abstracted as parameters (`darkFallback` is
`colors.primary?.[900] || colors.gray?.[900] || '#000000'`, `lightFallback`
is `colors.secondary?.[100] || colors.gray?.[100] || '#ffffff'`).  When a
channel is `NaN` the luminance is `NaN` and `NaN > 0.5` is false, so the
light fallback is returned, exactly as on parse failure. -/
noncomputable def getContrastColor (darkFallback lightFallback : String) (color : String) : String :=
  match parseColor color.data with
  | some (some r, some g, some b) =>
    if luminance r g b > 0.5 then darkFallback else lightFallback
  | _ => lightFallback

/-! ## Theme model

`theme.colors` is a JavaScript object whose values are either color literal
leaves (strings, or other primitives such as numbers) or nested objects of
shades.  Objects are modelled as association lists with the first binding
winning (JavaScript object keys are unique, which the well-formedness
predicate below captures). -/

/-- A primitive JavaScript value stored at a leaf of the color theme. -/
inductive JsVal where
  | str : String → JsVal
  | num : ℤ → JsVal
deriving DecidableEq, Repr

/-- JavaScript truthiness of a leaf value (`""` and `0` are falsy). -/
def JsVal.truthy : JsVal → Bool
  | .str s => !(s == "")
  | .num n => !(n == 0)

mutual
/-- A node of the color theme tree: a leaf literal or a nested object. -/
inductive ColorNode where
  | leaf : JsVal → ColorNode
  | group : ColorEntries → ColorNode
deriving DecidableEq, Repr

/-- The bindings of a theme object, in declaration order. -/
inductive ColorEntries where
  | nil : ColorEntries
  | cons : String → ColorNode → ColorEntries → ColorEntries
deriving DecidableEq, Repr
end

/-- Property lookup on a theme object (JavaScript `obj[key]`;
`none` is `undefined`). -/
def ColorEntries.lookup : ColorEntries → String → Option ColorNode
  | .nil, _ => none
  | .cons k v r, key => if k = key then some v else r.lookup key

/-- JavaScript truthiness of a node: objects are always truthy. -/
def ColorNode.truthy : ColorNode → Bool
  | .leaf v => v.truthy
  | .group _ => true

/-- String representation used when a node is interpolated into a template
literal (`String(x)` semantics for the modelled values). -/
def JsVal.toJsString : JsVal → String
  | .str s => s
  | .num n => toString n

/-- Template-literal interpolation of a node. -/
def ColorNode.toJsString : ColorNode → String
  | .leaf v => v.toJsString
  | .group _ => "[object Object]"

/-- JavaScript string indexing `s[key]`: defined exactly for canonical
numeric-index keys in range, yielding a one-character string. -/
def jsStringIndex (s : String) (key : String) : Option ColorNode :=
  if key.data ≠ [] ∧ key.data.all isDigitChar ∧ (key = "0" ∨ key.data.head? ≠ some '0')
  then
    match s.data.get? (decVal key.data) with
    | some c => some (.leaf (.str (String.mk [c])))
    | none => none
  else none

/-- Property access `node[key]` as the source performs it on
`colorGroup[shade]`: object lookup on groups, JavaScript string indexing on
string leaves, `undefined` on other primitives. -/
def ColorNode.index : ColorNode → String → Option ColorNode
  | .group e, key => e.lookup key
  | .leaf (.str s), key => jsStringIndex s key
  | .leaf (.num _), _ => none

/-- The `theme` object handed to a rule: it may lack a `colors` key. -/
structure Theme where
  colors : Option ColorEntries

/-- `theme.colors || {}`. -/
def Theme.colorsOrEmpty (t : Theme) : ColorEntries := t.colors.getD .nil

/-- `x || y` on an optionally-undefined value (first operand wins when
truthy). -/
def jsOrNode (x : Option ColorNode) (y : ColorNode) : ColorNode :=
  match x with
  | some n => if n.truthy then n else y
  | none => y

/-- Optional chaining `colors.name?.[key]`. -/
def optChain (colors : ColorEntries) (name key : String) : Option ColorNode :=
  (colors.lookup name).bind fun n => n.index key

/-- `colors.primary?.[900] || colors.gray?.[900] || '#000000'`
(the dark-text fallback chain, lines 56 and 89). -/
def darkTextColor (colors : ColorEntries) : ColorNode :=
  jsOrNode (optChain colors "primary" "900")
    (jsOrNode (optChain colors "gray" "900") (.leaf (.str "#000000")))

/-- `colors.secondary?.[100] || colors.gray?.[100] || '#ffffff'`
(the light-text fallback chain, lines 59 and 92). -/
def lightTextColor (colors : ColorEntries) : ColorNode :=
  jsOrNode (optChain colors "secondary" "100")
    (jsOrNode (optChain colors "gray" "100") (.leaf (.str "#ffffff")))

/-- Result of a rule body: a CSS property mapping or a literal CSS block. -/
inductive RuleResult where
  | props : List (String × ColorNode) → RuleResult
  | css : String → RuleResult
deriving DecidableEq

/-- Body of the solid rule `/^button-([a-z]+)-(\d+)$/` (lines 40-67).
`parseInt(shade)` on the `(\d+)` capture is its decimal value. -/
def solidButtonResolver (theme : Theme) (colorName shade : String) : Option RuleResult :=
  let colors := theme.colorsOrEmpty
  match colors.lookup colorName with
  | none => none
  | some colorGroup =>
    if !colorGroup.truthy then none
    else
      match colorGroup.index shade with
      | none => none
      | some bgColor =>
        if !bgColor.truthy then none
        else
          let textColor :=
            if decVal shade.data ≤ 400 then darkTextColor colors else lightTextColor colors
          some (.props
            [("color", textColor), ("border-color", bgColor), ("background-color", bgColor)])

/-- The template literal returned by the ghost rule (lines 96-108), with the
exact whitespace of the source. -/
def ghostCss (rawSelector textColor borderColor hoverTextColor : String) : String :=
  "\n                        ." ++ rawSelector ++ " \x7b\n" ++
  "                            color: " ++ textColor ++ ";\n" ++
  "                            border-color: " ++ borderColor ++ ";\n" ++
  "                            background-color: transparent;\n" ++
  "                        \x7d\n" ++
  "                        ." ++ rawSelector ++ ":hover,\n" ++
  "                        ." ++ rawSelector ++ ":focus \x7b\n" ++
  "                            background-color: " ++ borderColor ++ ";\n" ++
  "                            border-color: " ++ borderColor ++ ";\n" ++
  "                            color: " ++ hoverTextColor ++ ";\n" ++
  "                        \x7d\n" ++
  "                    "

/-- Body of the ghost rule `/^button-ghost-([a-z]+)-(\d+)$/` (lines 73-109). -/
def ghostButtonResolver (theme : Theme) (rawSelector : String) (colorName shade : String) :
    Option RuleResult :=
  let colors := theme.colorsOrEmpty
  match colors.lookup colorName with
  | none => none
  | some colorGroup =>
    if !colorGroup.truthy then none
    else
      match colorGroup.index shade with
      | none => none
      | some borderColor =>
        if !borderColor.truthy then none
        else
          let hoverTextColor :=
            if decVal shade.data ≤ 400 then darkTextColor colors else lightTextColor colors
          some (.css (ghostCss rawSelector borderColor.toJsString borderColor.toJsString
            hoverTextColor.toJsString))

/-! ## The four rule patterns

Each anchored pattern is modelled by a matcher returning its capture groups.
As in the `rgb` matcher, the classes `[a-z]`, `\d` and the literal characters
involved are pairwise disjoint, so greedy maximal-munch scanning is exactly
the regex semantics; for `(.+)\]$` the backtracking match forces the closing
bracket to be the final character and the capture to contain no JavaScript
line terminator (which `.` does not match). -/

/-- Matches `([a-z]+)-(\d+)$`, the shared tail of the two named patterns. -/
def matchTail (r : List Char) : Option (List Char × List Char) :=
  let w := r.takeWhile isLowerAlpha
  let r1 := r.dropWhile isLowerAlpha
  if w.isEmpty then none else
  match r1 with
  | '-' :: r2 =>
    let d := r2.takeWhile isDigitChar
    let r3 := r2.dropWhile isDigitChar
    if d.isEmpty then none else if r3.isEmpty then some (w, d) else none
  | _ => none

/-- The literal lead `button-` of the solid patterns. -/
def solidLead : List Char := ['b', 'u', 't', 't', 'o', 'n', '-']

/-- The literal lead `button-ghost-` of the ghost patterns. -/
def ghostLead : List Char := ['b', 'u', 't', 't', 'o', 'n', '-', 'g', 'h', 'o', 's', 't', '-']

/-- `/^button-([a-z]+)-(\d+)$/` (line 39). -/
def matchSolid (s : List Char) : Option (List Char × List Char) :=
  if s.take 7 = solidLead then matchTail (s.drop 7) else none

/-- `/^button-ghost-([a-z]+)-(\d+)$/` (line 72). -/
def matchGhost (s : List Char) : Option (List Char × List Char) :=
  if s.take 13 = ghostLead then matchTail (s.drop 13) else none

/-- Matches `(.+)\]$` after the opening bracket. -/
def bracketTail (r : List Char) : Option (List Char) :=
  match r with
  | [] => none
  | _ =>
    if r.getLast? == some ']' && !r.dropLast.isEmpty
        && r.dropLast.all (fun c => !isLineTerm c)
    then some r.dropLast else none

/-- `/^button-\[(.+)\]$/` (line 114). -/
def matchBracket (s : List Char) : Option (List Char) :=
  if s.take 8 = solidLead ++ ['['] then bracketTail (s.drop 8) else none

/-- `/^button-ghost-\[(.+)\]$/` (line 181). -/
def matchGhostBracket (s : List Char) : Option (List Char) :=
  if s.take 14 = ghostLead ++ ['['] then bracketTail (s.drop 14) else none

/-- Number of the four rule patterns that accept a candidate class name. -/
def ruleMatchCount (s : String) : ℕ :=
  (if (matchSolid s.data).isSome then 1 else 0) +
  (if (matchGhost s.data).isSome then 1 else 0) +
  (if (matchBracket s.data).isSome then 1 else 0) +
  (if (matchGhostBracket s.data).isSome then 1 else 0)

/-- The solid rule: pattern match plus resolver body. -/
def solidRule (theme : Theme) (s : String) : Option RuleResult :=
  match matchSolid s.data with
  | some (w, d) => solidButtonResolver theme (String.mk w) (String.mk d)
  | none => none

/-- The ghost rule: pattern match plus resolver body (`rawSelector` is
supplied by the host framework alongside the candidate). -/
def ghostRule (theme : Theme) (rawSelector : String) (s : String) : Option RuleResult :=
  match matchGhost s.data with
  | some (w, d) => ghostButtonResolver theme rawSelector (String.mk w) (String.mk d)
  | none => none

/-! ## Theme flattener (specification §4.1)

The flattener is not part of src/dist/index.js (UnoCSS's own `$colors`
autocomplete machinery consumes the theme); it is specified in §4.1 of the
specification and modelled from those words here. -/

mutual
/-- Modelled from the spec: the repository ships no `flatten` source (only
the autocomplete glue that consumes it), so §4.1 of the specification is
transcribed: recursively descend; a leaf child emits its own key; a mapping
child is flattened and each resulting leaf key `lk` is re-keyed as
`<parentKey>-<lk>`, a key equal to the literal token `DEFAULT` collapsing to
the bare parent key. -/
def flattenEntries : ColorEntries → List (String × JsVal)
  | .nil => []
  | .cons k n rest => flattenAt k n ++ flattenEntries rest

/-- Modelled from the spec: flattening of a single child of key `k`
(see `flattenEntries`). -/
def flattenAt : String → ColorNode → List (String × JsVal)
  | k, .leaf v => [(k, v)]
  | k, .group g =>
    (flattenEntries g).map fun p => (if p.1 = "DEFAULT" then k else k ++ "-" ++ p.1, p.2)
end

mutual
/-- Keys of a theme object, in order. -/
def entriesKeys : ColorEntries → List String
  | .nil => []
  | .cons k _ r => k :: entriesKeys r

end

mutual
/-- Well-formedness of a theme object as a JavaScript value: keys are
pairwise distinct at every level (object keys are unique). -/
def entriesWF : ColorEntries → Bool
  | .nil => true
  | .cons k n r => decide (k ∉ entriesKeys r) && nodeWF n && entriesWF r

/-- Well-formedness of a node (see `entriesWF`). -/
def nodeWF : ColorNode → Bool
  | .leaf _ => true
  | .group g => entriesWF g
end

mutual
/-- No key at any level of the object contains the dash character. -/
def entriesDashFree : ColorEntries → Bool
  | .nil => true
  | .cons k n r => decide ('-' ∉ k.data) && nodeDashFree n && entriesDashFree r

/-- No key at any level below the node contains the dash character. -/
def nodeDashFree : ColorNode → Bool
  | .leaf _ => true
  | .group g => entriesDashFree g
end

/-! ## Claim-side definitions and example themes -/

/-- Claim-side definition (following the specification words of C3, to be
compared with the source pattern): `rgba?\\(\\s*(\\d+)\\s*,\\s*(\\d+)\\s*,\\s*(\\d+)`,
i.e. whitespace also permitted after the opening parenthesis and before each
comma.  This is the part after `rgba?\\(`. -/
def specRgbTail (l : List Char) : Option (ℕ × ℕ × ℕ) :=
  let l0 := l.dropWhile isJsWhitespace
  if (l0.takeWhile isDigitChar).isEmpty then none else
  let r1 := (l0.dropWhile isDigitChar).dropWhile isJsWhitespace
  if r1.head? = some ',' then
    let r2 := r1.tail.dropWhile isJsWhitespace
    if (r2.takeWhile isDigitChar).isEmpty then none else
    let r3 := (r2.dropWhile isDigitChar).dropWhile isJsWhitespace
    if r3.head? = some ',' then
      let r4 := r3.tail.dropWhile isJsWhitespace
      if (r4.takeWhile isDigitChar).isEmpty then none
      else some (decVal (l0.takeWhile isDigitChar), decVal (r2.takeWhile isDigitChar),
        decVal (r4.takeWhile isDigitChar))
    else none
  else none

/-- Claim-side: the specification's pattern anchored at the head. -/
def specRgbMatchAt : List Char → Option (ℕ × ℕ × ℕ)
  | 'r' :: 'g' :: 'b' :: 'a' :: '(' :: r => specRgbTail r
  | 'r' :: 'g' :: 'b' :: '(' :: r => specRgbTail r
  | _ => none

/-- Claim-side: leftmost match of the specification's pattern. -/
def specRgbSearch : List Char → Option (ℕ × ℕ × ℕ)
  | [] => none
  | c :: rest =>
    match specRgbMatchAt (c :: rest) with
    | some t => some t
    | none => specRgbSearch rest

/-- The literal lead `rgb(` or `rgba(` without its parenthesis. -/
def rgbLead (alpha : Bool) : List Char :=
  if alpha then ['r', 'g', 'b', 'a'] else ['r', 'g', 'b']

/-- Claim-side definition (following the specification words of C4): a
candidate that parses as 3-digit hex, 6-digit hex, or `rgb()`/`rgba()`. -/
def specParsesColor (c : List Char) : Bool :=
  (match c with
   | '#' :: hex =>
     (hex.length == 3 || hex.length == 6) && hex.all fun ch => (hexDigitVal ch).isSome
   | _ => false) || (specRgbSearch c).isSome

/-- Example theme colors `{blue: {500: "#112233"}}`. -/
def exampleColors : ColorEntries :=
  .cons "blue" (.group (.cons "500" (.leaf (.str "#112233")) .nil)) .nil

/-- Example theme whose shade value is the falsy string `""`. -/
def falsyStrColors : ColorEntries :=
  .cons "blue" (.group (.cons "500" (.leaf (.str "")) .nil)) .nil

/-- Example theme whose shade value is the falsy number `0`. -/
def falsyNumColors : ColorEntries :=
  .cons "blue" (.group (.cons "500" (.leaf (.num 0)) .nil)) .nil

/-- The specification's flattening example `{a: {b: "#fff", DEFAULT: "#000"}}`. -/
def exampleNested : ColorEntries :=
  .cons "a" (.group (.cons "b" (.leaf (.str "#fff"))
    (.cons "DEFAULT" (.leaf (.str "#000")) .nil))) .nil

/-- A well-formed, acyclic theme on which flattening produces a duplicate
key: `{a: {b: "#1"}, "a-b": "#2"}`. -/
def dupKeyTree : ColorEntries :=
  .cons "a" (.group (.cons "b" (.leaf (.str "#1")) .nil))
    (.cons "a-b" (.leaf (.str "#2")) .nil)

/-! ## List and character-class helper lemmas -/

theorem takeWhile_append_stop {p : Char → Bool} {w t : List Char} {x : Char}
    (hw : ∀ c ∈ w, p c = true) (hx : p x = false) :
    (w ++ x :: t).takeWhile p = w := by
  induction w with
  | nil => simp [List.takeWhile_cons, hx]
  | cons a w ih =>
    have ha : p a = true := hw a (by simp)
    simp only [List.cons_append, List.takeWhile_cons, ha, if_true]
    exact congrArg (a :: ·) (ih fun c hc => hw c (by simp [hc]))

theorem dropWhile_append_stop {p : Char → Bool} {w t : List Char} {x : Char}
    (hw : ∀ c ∈ w, p c = true) (hx : p x = false) :
    (w ++ x :: t).dropWhile p = x :: t := by
  induction w with
  | nil => simp [List.dropWhile_cons, hx]
  | cons a w ih =>
    have ha : p a = true := hw a (by simp)
    simp only [List.cons_append, List.dropWhile_cons, ha, if_true]
    exact ih fun c hc => hw c (by simp [hc])

theorem takeWhile_all {p : Char → Bool} {l : List Char}
    (h : ∀ c ∈ l, p c = true) : l.takeWhile p = l := by
  induction l with
  | nil => rfl
  | cons a l ih =>
    have ha : p a = true := h a (by simp)
    simp only [List.takeWhile_cons, ha, if_true]
    exact congrArg (a :: ·) (ih fun c hc => h c (by simp [hc]))

theorem dropWhile_all {p : Char → Bool} {l : List Char}
    (h : ∀ c ∈ l, p c = true) : l.dropWhile p = [] := by
  induction l with
  | nil => rfl
  | cons a l ih =>
    have ha : p a = true := h a (by simp)
    simp only [List.dropWhile_cons, ha, if_true]
    exact ih fun c hc => h c (by simp [hc])

theorem digit_not_whitespace {c : Char} (h : isDigitChar c = true) :
    isJsWhitespace c = false := by
  simp only [isDigitChar, decide_eq_true_eq] at h
  simp only [isJsWhitespace, decide_eq_false_iff_not]
  omega

theorem digit_not_lower {c : Char} (h : isDigitChar c = true) :
    isLowerAlpha c = false := by
  simp only [isDigitChar, decide_eq_true_eq] at h
  simp only [isLowerAlpha, decide_eq_false_iff_not]
  omega

theorem digit_ne_comma {c : Char} (h : isDigitChar c = true) : c ≠ ',' := by
  intro hc
  subst hc
  simp [isDigitChar] at h

theorem lower_ne_dash {c : Char} (h : isLowerAlpha c = true) : c ≠ '-' := by
  intro hc
  subst hc
  simp [isLowerAlpha] at h

theorem hexDigitVal_some {c : Char} {v : ℕ} (h : hexDigitVal c = some v) :
    v < 16 ∧ isJsWhitespace c = false ∧ c ≠ '-' ∧ c ≠ '+' ∧ c ≠ 'x' ∧ c ≠ 'X' := by
  unfold hexDigitVal at h
  split at h
  case isTrue hr =>
    injection h with h
    subst h
    refine ⟨by omega, ?_, ?_, ?_, ?_, ?_⟩
    · simp only [isJsWhitespace, decide_eq_false_iff_not]; omega
    · rintro rfl; revert hr; decide
    · rintro rfl; revert hr; decide
    · rintro rfl; revert hr; decide
    · rintro rfl; revert hr; decide
  case isFalse =>
    split at h
    case isTrue hr =>
      injection h with h
      subst h
      refine ⟨by omega, ?_, ?_, ?_, ?_, ?_⟩
      · simp only [isJsWhitespace, decide_eq_false_iff_not]; omega
      · rintro rfl; revert hr; decide
      · rintro rfl; revert hr; decide
      · rintro rfl; revert hr; decide
      · rintro rfl; revert hr; decide
    case isFalse =>
      split at h
      case isTrue hr =>
        injection h with h
        subst h
        refine ⟨by omega, ?_, ?_, ?_, ?_, ?_⟩
        · simp only [isJsWhitespace, decide_eq_false_iff_not]; omega
        · rintro rfl; revert hr; decide
        · rintro rfl; revert hr; decide
        · rintro rfl; revert hr; decide
        · rintro rfl; revert hr; decide
      case isFalse => exact absurd h (by simp)

/-- Evaluation of the embedded `parseInt(s, 16)` on a two-hex-digit string:
no trimming, sign or `0x` stripping applies, and the two digits are read. -/
theorem jsParseInt16_two_digits {c₁ c₂ : Char} {v₁ v₂ : ℕ}
    (h₁ : hexDigitVal c₁ = some v₁) (h₂ : hexDigitVal c₂ = some v₂) :
    jsParseInt16 [c₁, c₂] = some ((16 * v₁ + v₂ : ℕ) : ℤ) := by
  obtain ⟨-, hw₁, hm₁, hp₁, -, -⟩ := hexDigitVal_some h₁
  obtain ⟨-, -, -, -, hx₂, hX₂⟩ := hexDigitVal_some h₂
  have e1 : (hexDigitVal c₁).isSome = true := by simp [h₁]
  have e2 : (hexDigitVal c₂).isSome = true := by simp [h₂]
  simp only [jsParseInt16, List.dropWhile_cons, hw₁, Bool.false_eq_true, if_false,
    List.head?_cons, List.tail_cons, Option.some.injEq, hm₁, hp₁, hx₂, hX₂, or_self,
    and_false, if_false, or_false, false_or, List.takeWhile_cons, e1, if_true,
    List.takeWhile_nil, List.isEmpty_cons, List.foldl, h₁, h₂, Option.getD_some]
  refine congrArg some ?_
  push_cast
  ring

/-! ## Hex encoding and luminance evaluation -/

/-- The lower-case hexadecimal digit of a value below 16 (`0`-`9` then
`a`-`f`, by code point). -/
def hexDig (n : ℕ) : Char :=
  if n < 10 then Char.ofNat (48 + n) else Char.ofNat (87 + n)

theorem hexDigitVal_hexDig : ∀ n, n < 16 → hexDigitVal (hexDig n) = some n := by decide

/-- The 6-digit hex encoding `#rrggbb` of a byte triple. -/
def hexEncode6 (r g b : ℕ) : String :=
  String.mk ['#', hexDig (r / 16), hexDig (r % 16), hexDig (g / 16), hexDig (g % 16),
    hexDig (b / 16), hexDig (b % 16)]

theorem jsParseInt16_byte {n : ℕ} (h : n ≤ 255) :
    jsParseInt16 [hexDig (n / 16), hexDig (n % 16)] = some (n : ℤ) := by
  have h1 : n / 16 < 16 := by omega
  have h2 : n % 16 < 16 := Nat.mod_lt _ (by norm_num)
  rw [jsParseInt16_two_digits (hexDigitVal_hexDig _ h1) (hexDigitVal_hexDig _ h2)]
  congr 1
  norm_cast
  omega

theorem parseColor_hexEncode6 {r g b : ℕ} (hr : r ≤ 255) (hg : g ≤ 255) (hb : b ≤ 255) :
    parseColor (hexEncode6 r g b).data = some (some (r : ℤ), some (g : ℤ), some (b : ℤ)) := by
  show parseColor ('#' :: [hexDig (r / 16), hexDig (r % 16), hexDig (g / 16), hexDig (g % 16),
    hexDig (b / 16), hexDig (b % 16)]) = _
  simp only [parseColor, jsParseInt16_byte hr, jsParseInt16_byte hg, jsParseInt16_byte hb]

theorem gammaCorrect_255 : gammaCorrect 255 = 1 := by
  unfold gammaCorrect
  rw [if_neg (by norm_num)]
  rw [show (((255 : ℤ) : ℝ) / 255 + 0.055) / 1.055 = 1 by norm_num]
  exact Real.one_rpow _

theorem gammaCorrect_0 : gammaCorrect 0 = 0 := by
  unfold gammaCorrect
  rw [if_pos (by norm_num)]
  norm_num

theorem gammaCorrect_nonneg {c : ℤ} (h : 0 ≤ c) : 0 ≤ gammaCorrect c := by
  unfold gammaCorrect
  have hc : (0 : ℝ) ≤ (c : ℝ) := by exact_mod_cast h
  split
  · positivity
  · exact Real.rpow_nonneg (by positivity) _

theorem luminance_white : luminance 255 255 255 = 1 := by
  unfold luminance
  rw [gammaCorrect_255]
  norm_num

theorem luminance_black : luminance 0 0 0 = 0 := by
  unfold luminance
  rw [gammaCorrect_0]
  norm_num

theorem luminance_15_255_255 : luminance 15 255 255 > 0.5 := by
  unfold luminance
  rw [gammaCorrect_255]
  have h0 : 0 ≤ gammaCorrect 15 := gammaCorrect_nonneg (by norm_num)
  nlinarith

/-- The code's parse step fails to produce three numbers: the variables stay
`undefined` or at least one `parseInt` gave `NaN`.  On this condition the
luminance branch of `getContrastColor` is not taken (`NaN > 0.5` is false
when the variables are defined but `NaN`). -/
def parseFailed (color : String) : Bool :=
  match parseColor color.data with
  | some (some _, some _, some _) => false
  | _ => true

open Classical in
theorem getContrastColor_parsed {dark light color : String} {r g b : ℤ}
    (h : parseColor color.data = some (some r, some g, some b)) :
    getContrastColor dark light color = if luminance r g b > 0.5 then dark else light := by
  unfold getContrastColor
  rw [h]

theorem getContrastColor_of_parseFailed {dark light color : String}
    (h : parseFailed color = true) :
    getContrastColor dark light color = light := by
  unfold parseFailed at h
  unfold getContrastColor
  rcases hp : parseColor color.data with - | ⟨r?, g?, b?⟩
  · rfl
  · rcases r? with - | r <;> rcases g? with - | g <;> rcases b? with - | b <;> simp_all

/-! ## Shape lemmas for the pattern matchers -/

theorem matchTail_shape {r w d : List Char} (h : matchTail r = some (w, d)) :
    r = w ++ '-' :: d ∧ w ≠ [] ∧ (∀ c ∈ w, isLowerAlpha c = true) ∧
      d ≠ [] ∧ (∀ c ∈ d, isDigitChar c = true) := by
  simp only [matchTail] at h
  split at h
  · exact absurd h (by simp)
  · rename_i hne
    split at h
    · rename_i r2 heq
      split at h
      · exact absurd h (by simp)
      · rename_i hdne
        split at h
        · rename_i hr3
          injection h with h
          injection h with hw hd
          subst hw hd
          refine ⟨?_, ?_, ?_, ?_, ?_⟩
          · conv_lhs => rw [← List.takeWhile_append_dropWhile isLowerAlpha r]
            rw [heq]
            have h2 : r2 = r2.takeWhile isDigitChar ++ r2.dropWhile isDigitChar :=
              (List.takeWhile_append_dropWhile isDigitChar r2).symm
            rw [List.isEmpty_iff] at hr3
            rw [hr3, List.append_nil] at h2
            exact congrArg _ (congrArg _ h2)
          · simpa [List.isEmpty_iff] using hne
          · exact fun c hc => List.mem_takeWhile_imp hc
          · simpa [List.isEmpty_iff] using hdne
          · exact fun c hc => List.mem_takeWhile_imp hc
        · exact absurd h (by simp)
    · exact absurd h (by simp)

theorem matchTail_complete {w d : List Char} (hw : w ≠ [])
    (hwall : ∀ c ∈ w, isLowerAlpha c = true) (hd : d ≠ [])
    (hdall : ∀ c ∈ d, isDigitChar c = true) :
    matchTail (w ++ '-' :: d) = some (w, d) := by
  simp only [matchTail]
  rw [takeWhile_append_stop hwall (by decide), dropWhile_append_stop hwall (by decide)]
  rw [if_neg (by simpa [List.isEmpty_iff] using hw)]
  split
  · rename_i r2 heq
    injection heq with h1 h2
    subst h2
    rw [takeWhile_all hdall, dropWhile_all hdall]
    simp [List.isEmpty_iff, hd]
  · rename_i hno
    exact absurd rfl (hno d)

theorem matchSolid_shape {s : List Char} {w d : List Char}
    (h : matchSolid s = some (w, d)) :
    s = solidLead ++ (w ++ '-' :: d) ∧ w ≠ [] ∧
      (∀ c ∈ w, isLowerAlpha c = true) ∧ d ≠ [] ∧ (∀ c ∈ d, isDigitChar c = true) := by
  unfold matchSolid at h
  split at h
  · rename_i hpre
    obtain ⟨hr, h2, h3, h4, h5⟩ := matchTail_shape h
    refine ⟨?_, h2, h3, h4, h5⟩
    rw [← hpre, ← hr]
    exact (List.take_append_drop 7 s).symm
  · exact absurd h (by simp)

theorem matchGhost_shape {s : List Char} {w d : List Char}
    (h : matchGhost s = some (w, d)) :
    s = ghostLead ++ (w ++ '-' :: d) ∧ w ≠ [] ∧
      (∀ c ∈ w, isLowerAlpha c = true) ∧ d ≠ [] ∧ (∀ c ∈ d, isDigitChar c = true) := by
  unfold matchGhost at h
  split at h
  · rename_i hpre
    obtain ⟨hr, h2, h3, h4, h5⟩ := matchTail_shape h
    refine ⟨?_, h2, h3, h4, h5⟩
    rw [← hpre, ← hr]
    exact (List.take_append_drop 13 s).symm
  · exact absurd h (by simp)

theorem matchBracket_shape {s : List Char} {b : List Char}
    (h : matchBracket s = some b) :
    s = solidLead ++ '[' :: s.drop 8 := by
  unfold matchBracket at h
  split at h
  · rename_i hpre
    conv_lhs => rw [← List.take_append_drop 8 s]
    rw [hpre]
    rfl
  · exact absurd h (by simp)

theorem matchGhostBracket_shape {s : List Char} {b : List Char}
    (h : matchGhostBracket s = some b) :
    s = ghostLead ++ '[' :: s.drop 14 := by
  unfold matchGhostBracket at h
  split at h
  · rename_i hpre
    conv_lhs => rw [← List.take_append_drop 14 s]
    rw [hpre]
    rfl
  · exact absurd h (by simp)

/-! ## Pairwise exclusivity of the four patterns -/

theorem excl_solid_ghost {s : List Char} {x y : List Char × List Char}
    (h1 : matchSolid s = some x) (h2 : matchGhost s = some y) : False := by
  obtain ⟨w, d⟩ := x
  obtain ⟨w2, d2⟩ := y
  obtain ⟨hs1, -, hw1, -, hd1⟩ := matchSolid_shape h1
  obtain ⟨hs2, hw2ne, hw2, -, -⟩ := matchGhost_shape h2
  rw [hs1] at hs2
  have heq : w ++ '-' :: d = 'g' :: 'h' :: 'o' :: 's' :: 't' :: '-' :: (w2 ++ '-' :: d2) := by
    have hs2' : solidLead ++ (w ++ '-' :: d)
        = solidLead ++ ('g' :: 'h' :: 'o' :: 's' :: 't' :: '-' :: (w2 ++ '-' :: d2)) := by
      simpa [ghostLead, solidLead] using hs2
    exact List.append_cancel_left hs2'
  have hdw : ('-' : Char) :: d = '-' :: (w2 ++ '-' :: d2) := by
    have l1 : (w ++ '-' :: d).dropWhile isLowerAlpha = '-' :: d :=
      dropWhile_append_stop hw1 (by decide)
    have l2 : ('g' :: 'h' :: 'o' :: 's' :: 't' :: '-' :: (w2 ++ '-' :: d2)).dropWhile isLowerAlpha
        = '-' :: (w2 ++ '-' :: d2) := by
      have l3 := dropWhile_append_stop (p := isLowerAlpha) (w := ['g', 'h', 'o', 's', 't'])
        (t := w2 ++ '-' :: d2) (x := '-') (by decide) (by decide)
      simpa using l3
    rw [← l1, heq, l2]
  have hd' : d = w2 ++ '-' :: d2 := by injection hdw
  obtain ⟨c, w2', rfl⟩ : ∃ c w2', w2 = c :: w2' := by
    cases w2 with
    | nil => exact absurd rfl hw2ne
    | cons c w2' => exact ⟨c, w2', rfl⟩
  have hcd : isDigitChar c = true := hd1 c (by rw [hd']; simp)
  have hcl : isLowerAlpha c = true := hw2 c (by simp)
  rw [digit_not_lower hcd] at hcl
  cases hcl

theorem excl_solid_bracket {s : List Char} {x : List Char × List Char} {b : List Char}
    (h1 : matchSolid s = some x) (h2 : matchBracket s = some b) : False := by
  obtain ⟨w, d⟩ := x
  obtain ⟨hs1, hwne, hw1, -, -⟩ := matchSolid_shape h1
  have hs2 := matchBracket_shape h2
  rw [hs1] at hs2
  have heq : w ++ '-' :: d = '[' :: (solidLead ++ (w ++ '-' :: d)).drop 8 := by
    have hs2' : solidLead ++ (w ++ '-' :: d)
        = solidLead ++ ('[' :: (solidLead ++ (w ++ '-' :: d)).drop 8) := by
      simpa [solidLead] using hs2
    exact List.append_cancel_left hs2'
  obtain ⟨c, w', rfl⟩ : ∃ c w', w = c :: w' := by
    cases w with
    | nil => exact absurd rfl hwne
    | cons c w' => exact ⟨c, w', rfl⟩
  have hc : c = '[' := by
    have := congrArg List.head? heq
    simpa using this
  have := hw1 c (by simp)
  rw [hc] at this
  cases this

theorem excl_solid_gbracket {s : List Char} {x : List Char × List Char} {b : List Char}
    (h1 : matchSolid s = some x) (h2 : matchGhostBracket s = some b) : False := by
  obtain ⟨w, d⟩ := x
  obtain ⟨hs1, -, hw1, -, hd1⟩ := matchSolid_shape h1
  have hs2 := matchGhostBracket_shape h2
  rw [hs1] at hs2
  set rest := (solidLead ++ (w ++ '-' :: d)).drop 14 with hrest
  have heq : w ++ '-' :: d = 'g' :: 'h' :: 'o' :: 's' :: 't' :: '-' :: '[' :: rest := by
    have hs2' : solidLead ++ (w ++ '-' :: d)
        = solidLead ++ ('g' :: 'h' :: 'o' :: 's' :: 't' :: '-' :: '[' :: rest) := by
      simpa [ghostLead, solidLead] using hs2
    exact List.append_cancel_left hs2'
  have hdw : ('-' : Char) :: d = '-' :: '[' :: rest := by
    have l1 : (w ++ '-' :: d).dropWhile isLowerAlpha = '-' :: d :=
      dropWhile_append_stop hw1 (by decide)
    have l2 : ('g' :: 'h' :: 'o' :: 's' :: 't' :: '-' :: '[' :: rest).dropWhile isLowerAlpha
        = '-' :: '[' :: rest := by
      have l3 := dropWhile_append_stop (p := isLowerAlpha) (w := ['g', 'h', 'o', 's', 't'])
        (t := '[' :: rest) (x := '-') (by decide) (by decide)
      simpa using l3
    rw [← l1, heq, l2]
  have hd' : d = '[' :: rest := by injection hdw
  have := hd1 '[' (by rw [hd']; simp)
  cases this

theorem excl_ghost_bracket {s : List Char} {y : List Char × List Char} {b : List Char}
    (h1 : matchGhost s = some y) (h2 : matchBracket s = some b) : False := by
  obtain ⟨w2, d2⟩ := y
  obtain ⟨hs1, -, -, -, -⟩ := matchGhost_shape h1
  have hs2 := matchBracket_shape h2
  rw [hs1] at hs2
  have heq : 'g' :: 'h' :: 'o' :: 's' :: 't' :: '-' :: (w2 ++ '-' :: d2)
      = '[' :: (ghostLead ++ (w2 ++ '-' :: d2)).drop 8 := by
    have hs2' : solidLead ++ ('g' :: 'h' :: 'o' :: 's' :: 't' :: '-' :: (w2 ++ '-' :: d2))
        = solidLead ++ ('[' :: (ghostLead ++ (w2 ++ '-' :: d2)).drop 8) := by
      simpa [ghostLead, solidLead] using hs2
    exact List.append_cancel_left hs2'
  have : ('g' : Char) = '[' := by
    have := congrArg List.head? heq
    simpa using this
  cases this

theorem excl_ghost_gbracket {s : List Char} {y : List Char × List Char} {b : List Char}
    (h1 : matchGhost s = some y) (h2 : matchGhostBracket s = some b) : False := by
  obtain ⟨w2, d2⟩ := y
  obtain ⟨hs1, hw2ne, hw2, -, -⟩ := matchGhost_shape h1
  have hs2 := matchGhostBracket_shape h2
  rw [hs1] at hs2
  have heq : w2 ++ '-' :: d2 = '[' :: (ghostLead ++ (w2 ++ '-' :: d2)).drop 14 := by
    have hs2' : ghostLead ++ (w2 ++ '-' :: d2)
        = ghostLead ++ ('[' :: (ghostLead ++ (w2 ++ '-' :: d2)).drop 14) := by
      simpa [ghostLead] using hs2
    exact List.append_cancel_left hs2'
  obtain ⟨c, w2', rfl⟩ : ∃ c w2', w2 = c :: w2' := by
    cases w2 with
    | nil => exact absurd rfl hw2ne
    | cons c w2' => exact ⟨c, w2', rfl⟩
  have hc : c = '[' := by
    have := congrArg List.head? heq
    simpa using this
  have := hw2 c (by simp)
  rw [hc] at this
  cases this

theorem excl_bracket_gbracket {s : List Char} {b b2 : List Char}
    (h1 : matchBracket s = some b) (h2 : matchGhostBracket s = some b2) : False := by
  have hs1 := matchBracket_shape h1
  have hs2 := matchGhostBracket_shape h2
  rw [hs1] at hs2
  have heq : '[' :: (s.drop 8) = 'g' :: 'h' :: 'o' :: 's' :: 't' :: '-' :: '[' ::
      ((solidLead ++ '[' :: s.drop 8).drop 14) := by
    have hs2' : solidLead ++ ('[' :: (s.drop 8))
        = solidLead ++ ('g' :: 'h' :: 'o' :: 's' :: 't' :: '-' :: '[' ::
            ((solidLead ++ '[' :: s.drop 8).drop 14)) := by
      simpa [ghostLead, solidLead] using hs2
    exact List.append_cancel_left hs2'
  have : ('[' : Char) = 'g' := by
    have := congrArg List.head? heq
    simpa using this
  cases this

/-! ## Completeness of the matchers on well-shaped inputs -/

theorem rgbTail_complete {d1 d2 d3 ws1 ws2 rest : List Char}
    (h1 : d1 ≠ []) (h1a : ∀ c ∈ d1, isDigitChar c = true)
    (h2 : d2 ≠ []) (h2a : ∀ c ∈ d2, isDigitChar c = true)
    (h3 : d3 ≠ []) (h3a : ∀ c ∈ d3, isDigitChar c = true)
    (hw1 : ∀ c ∈ ws1, isJsWhitespace c = true) (hw2 : ∀ c ∈ ws2, isJsWhitespace c = true)
    (hrest : ∀ c, rest.head? = some c → isDigitChar c = false) :
    rgbTail (d1 ++ ',' :: (ws1 ++ (d2 ++ ',' :: (ws2 ++ (d3 ++ rest)))))
      = some (decVal d1, decVal d2, decVal d3) := by
  obtain ⟨c2, d2', rfl⟩ : ∃ c t, d2 = c :: t := by
    cases d2 with
    | nil => exact absurd rfl h2
    | cons c t => exact ⟨c, t, rfl⟩
  obtain ⟨c3, d3', rfl⟩ : ∃ c t, d3 = c :: t := by
    cases d3 with
    | nil => exact absurd rfl h3
    | cons c t => exact ⟨c, t, rfl⟩
  have htake3 : (c3 :: d3' ++ rest).takeWhile isDigitChar = c3 :: d3' := by
    cases rest with
    | nil => rw [List.append_nil]; exact takeWhile_all h3a
    | cons x t => exact takeWhile_append_stop h3a (hrest x rfl)
  simp only [rgbTail]
  rw [takeWhile_append_stop h1a (by decide), dropWhile_append_stop h1a (by decide)]
  rw [if_neg (by simpa [List.isEmpty_iff] using h1)]
  simp only [List.head?_cons]
  rw [if_pos trivial]
  simp only [List.tail_cons]
  rw [show ws1 ++ (c2 :: d2' ++ ',' :: (ws2 ++ (c3 :: d3' ++ rest)))
      = ws1 ++ c2 :: (d2' ++ ',' :: (ws2 ++ (c3 :: d3' ++ rest))) by simp]
  rw [dropWhile_append_stop hw1 (digit_not_whitespace (h2a c2 (by simp)))]
  rw [show (c2 : Char) :: (d2' ++ ',' :: (ws2 ++ (c3 :: d3' ++ rest)))
      = (c2 :: d2') ++ ',' :: (ws2 ++ (c3 :: d3' ++ rest)) by simp]
  rw [takeWhile_append_stop h2a (by decide), dropWhile_append_stop h2a (by decide)]
  rw [if_neg (by simp [List.isEmpty_iff])]
  simp only [List.head?_cons]
  rw [if_pos trivial]
  simp only [List.tail_cons]
  rw [show ws2 ++ (c3 :: d3' ++ rest) = ws2 ++ c3 :: (d3' ++ rest) by simp]
  rw [dropWhile_append_stop hw2 (digit_not_whitespace (h3a c3 (by simp)))]
  rw [show (c3 : Char) :: (d3' ++ rest) = (c3 :: d3') ++ rest by simp]
  rw [htake3]
  rw [if_neg (by simp [List.isEmpty_iff])]

theorem rgbMatchAt_rgb (r : List Char) :
    rgbMatchAt ('r' :: 'g' :: 'b' :: '(' :: r) = rgbTail r := rfl

theorem rgbMatchAt_rgba (r : List Char) :
    rgbMatchAt ('r' :: 'g' :: 'b' :: 'a' :: '(' :: r) = rgbTail r := rfl

theorem matchSolid_complete {name shade : List Char} (hn : name ≠ [])
    (hna : ∀ c ∈ name, isLowerAlpha c = true) (hs : shade ≠ [])
    (hsa : ∀ c ∈ shade, isDigitChar c = true) :
    matchSolid (solidLead ++ (name ++ '-' :: shade)) = some (name, shade) := by
  unfold matchSolid
  rw [if_pos]
  · rw [show (solidLead ++ (name ++ '-' :: shade)).drop 7 = name ++ '-' :: shade from
      List.drop_left solidLead _]
    exact matchTail_complete hn hna hs hsa
  · exact List.take_left solidLead _

theorem matchGhost_complete {name shade : List Char} (hn : name ≠ [])
    (hna : ∀ c ∈ name, isLowerAlpha c = true) (hs : shade ≠ [])
    (hsa : ∀ c ∈ shade, isDigitChar c = true) :
    matchGhost (ghostLead ++ (name ++ '-' :: shade)) = some (name, shade) := by
  unfold matchGhost
  rw [if_pos]
  · rw [show (ghostLead ++ (name ++ '-' :: shade)).drop 13 = name ++ '-' :: shade from
      List.drop_left ghostLead _]
    exact matchTail_complete hn hna hs hsa
  · exact List.take_left ghostLead _

/-! ## Evaluation lemmas for the rule resolver bodies -/

theorem solidButtonResolver_found {c g : ColorEntries} {n : ColorNode} {name shade : String}
    (hlook : c.lookup name = some (.group g)) (hshade : g.lookup shade = some n)
    (htruthy : n.truthy = true) :
    solidButtonResolver ⟨some c⟩ name shade = some (.props
      [("color", if decVal shade.data ≤ 400 then darkTextColor c else lightTextColor c),
       ("border-color", n), ("background-color", n)]) := by
  unfold solidButtonResolver Theme.colorsOrEmpty
  simp only [Option.getD_some, hlook]
  rw [show (ColorNode.group g).truthy = true from rfl]
  simp only [ColorNode.index, hshade]
  rw [htruthy]
  simp

theorem ghostButtonResolver_found {c g : ColorEntries} {n : ColorNode} {sel name shade : String}
    (hlook : c.lookup name = some (.group g)) (hshade : g.lookup shade = some n)
    (htruthy : n.truthy = true) :
    ghostButtonResolver ⟨some c⟩ sel name shade = some (.css
      (ghostCss sel n.toJsString n.toJsString
        (if decVal shade.data ≤ 400 then darkTextColor c else lightTextColor c).toJsString)) := by
  unfold ghostButtonResolver Theme.colorsOrEmpty
  simp only [Option.getD_some, hlook]
  rw [show (ColorNode.group g).truthy = true from rfl]
  simp only [ColorNode.index, hshade]
  rw [htruthy]
  simp

theorem solidButtonResolver_missing {c : ColorEntries} {name shade : String}
    (h : c.lookup name = none ∨
      ∃ g, c.lookup name = some (.group g) ∧ g.lookup shade = none) :
    solidButtonResolver ⟨some c⟩ name shade = none := by
  unfold solidButtonResolver Theme.colorsOrEmpty
  rcases h with h | ⟨g, hg, hs⟩
  · simp only [Option.getD_some, h]
  · simp only [Option.getD_some, hg]
    rw [show (ColorNode.group g).truthy = true from rfl]
    simp only [ColorNode.index, hs]
    simp

theorem ghostButtonResolver_missing {c : ColorEntries} {sel name shade : String}
    (h : c.lookup name = none ∨
      ∃ g, c.lookup name = some (.group g) ∧ g.lookup shade = none) :
    ghostButtonResolver ⟨some c⟩ sel name shade = none := by
  unfold ghostButtonResolver Theme.colorsOrEmpty
  rcases h with h | ⟨g, hg, hs⟩
  · simp only [Option.getD_some, h]
  · simp only [Option.getD_some, hg]
    rw [show (ColorNode.group g).truthy = true from rfl]
    simp only [ColorNode.index, hs]
    simp

theorem solidButtonResolver_falsy {c g : ColorEntries} {v : ColorNode} {name shade : String}
    (hlook : c.lookup name = some (.group g)) (hshade : g.lookup shade = some v)
    (hfal : v.truthy = false) :
    solidButtonResolver ⟨some c⟩ name shade = none := by
  unfold solidButtonResolver Theme.colorsOrEmpty
  simp only [Option.getD_some, hlook]
  rw [show (ColorNode.group g).truthy = true from rfl]
  simp only [ColorNode.index, hshade]
  rw [hfal]
  simp

theorem ghostButtonResolver_falsy {c g : ColorEntries} {v : ColorNode} {sel name shade : String}
    (hlook : c.lookup name = some (.group g)) (hshade : g.lookup shade = some v)
    (hfal : v.truthy = false) :
    ghostButtonResolver ⟨some c⟩ sel name shade = none := by
  unfold ghostButtonResolver Theme.colorsOrEmpty
  simp only [Option.getD_some, hlook]
  rw [show (ColorNode.group g).truthy = true from rfl]
  simp only [ColorNode.index, hshade]
  rw [hfal]
  simp

/-! ## Key arithmetic for the flattener -/

theorem str_ext {a b : String} (h : a.data = b.data) : a = b := by
  cases a with
  | mk da => cases b with
    | mk db => exact congrArg String.mk (by simpa using h)

theorem append_dash_inj {a a' t t' : List Char} (ha : '-' ∉ a) (ha' : '-' ∉ a')
    (h : a ++ '-' :: t = a' ++ '-' :: t') : a = a' ∧ t = t' := by
  induction a generalizing a' with
  | nil =>
    cases a' with
    | nil => simpa using h
    | cons y a' =>
      simp only [List.nil_append, List.cons_append, List.cons.injEq] at h
      exact absurd (by rw [h.1]; simp : ('-' : Char) ∈ y :: a') ha'
  | cons x a ih =>
    cases a' with
    | nil =>
      simp only [List.cons_append, List.nil_append, List.cons.injEq] at h
      exact absurd (by rw [← h.1]; simp : ('-' : Char) ∈ x :: a) ha
    | cons y a' =>
      simp only [List.cons_append, List.cons.injEq] at h
      obtain ⟨h1, h2⟩ := h
      obtain ⟨h3, h4⟩ := ih (by simp at ha; exact ha.2) (by simp at ha'; exact ha'.2) h2
      exact ⟨by rw [h1, h3], h4⟩

theorem key_split_inj {k k' s s' : String} (hk : '-' ∉ k.data) (hk' : '-' ∉ k'.data)
    (h : k ++ "-" ++ s = k' ++ "-" ++ s') : k = k' ∧ s = s' := by
  have hd : k.data ++ '-' :: s.data = k'.data ++ '-' :: s'.data := by
    have h2 := congrArg String.data h
    simpa [String.data_append] using h2
  obtain ⟨h1, h2⟩ := append_dash_inj hk hk' hd
  exact ⟨str_ext h1, str_ext h2⟩

theorem key_ne_dashed {k k' s' : String} (hk : '-' ∉ k.data) : k ≠ k' ++ "-" ++ s' := by
  intro h
  apply hk
  rw [h]
  simp [String.data_append]

theorem key_ne_self_dashed {k s : String} : k ≠ k ++ "-" ++ s := by
  intro h
  have h2 := congrArg String.length h
  simp only [String.length_append] at h2
  have : ("-" : String).length = 1 := rfl
  omega

theorem rekey_inj (k : String) :
    Function.Injective fun lk => if lk = "DEFAULT" then k else k ++ "-" ++ lk := by
  intro x y h
  by_cases hx : x = "DEFAULT" <;> by_cases hy : y = "DEFAULT" <;>
    simp only [hx, hy, if_true, if_false, reduceIte] at h
  · rw [hx, hy]
  · exact absurd h key_ne_self_dashed
  · exact absurd h.symm key_ne_self_dashed
  · have hd := congrArg String.data h
    simp only [String.data_append] at hd
    have hx' : x.data = y.data := List.append_cancel_left hd
    exact str_ext hx'

theorem entriesKeys_dashFree : ∀ {r : ColorEntries}, entriesDashFree r = true →
    ∀ k ∈ entriesKeys r, '-' ∉ k.data
  | .nil, _, k, hk => by cases hk
  | .cons k0 n0 r', h, k, hk => by
    simp only [entriesDashFree, Bool.and_eq_true, decide_eq_true_eq] at h
    simp only [entriesKeys, List.mem_cons] at hk
    rcases hk with rfl | hk
    · exact h.1.1
    · exact entriesKeys_dashFree h.2 k hk

mutual

theorem flattenEntries_keys : ∀ (e : ColorEntries), entriesWF e = true →
    entriesDashFree e = true →
    ((flattenEntries e).map Prod.fst).Nodup ∧
      ∀ key ∈ (flattenEntries e).map Prod.fst, ∃ k, k ∈ entriesKeys e ∧
        (key = k ∨ ∃ suf, key = k ++ "-" ++ suf)
  | .nil, _, _ => by simp [flattenEntries, entriesKeys]
  | .cons k n r, hwf, hdf => by
    simp only [entriesWF, entriesDashFree, Bool.and_eq_true, decide_eq_true_eq] at hwf hdf
    obtain ⟨⟨hknotin, hnwf⟩, hrwf⟩ := hwf
    obtain ⟨⟨hkdf, hndf⟩, hrdf⟩ := hdf
    obtain ⟨hA, hAmem⟩ := flattenAt_keys k n hnwf hndf
    obtain ⟨hR, hRmem⟩ := flattenEntries_keys r hrwf hrdf
    have hkeysmap : (flattenEntries (.cons k n r)).map Prod.fst
        = (flattenAt k n).map Prod.fst ++ (flattenEntries r).map Prod.fst := by
      simp [flattenEntries]
    constructor
    · rw [hkeysmap, List.nodup_append]
      refine ⟨hA, hR, ?_⟩
      intro a haA haR
      obtain ⟨k', hk'mem, hk'c⟩ := hRmem a haR
      have hk'df : '-' ∉ k'.data := entriesKeys_dashFree hrdf k' hk'mem
      rcases hAmem a haA with rfl | ⟨suf, rfl⟩
      · rcases hk'c with rfl | ⟨s', hs'⟩
        · exact hknotin hk'mem
        · exact key_ne_dashed hkdf hs'
      · rcases hk'c with hk' | ⟨s', hs'⟩
        · exact key_ne_dashed hk'df hk'.symm
        · obtain ⟨rfl, -⟩ := key_split_inj hkdf hk'df hs'
          exact hknotin hk'mem
    · intro key hkey
      rw [hkeysmap, List.mem_append] at hkey
      rcases hkey with h | h
      · exact ⟨k, by simp [entriesKeys], hAmem key h⟩
      · obtain ⟨k', hk', hc⟩ := hRmem key h
        exact ⟨k', by simp [entriesKeys, hk'], hc⟩

theorem flattenAt_keys : ∀ (k : String) (n : ColorNode), nodeWF n = true →
    nodeDashFree n = true →
    ((flattenAt k n).map Prod.fst).Nodup ∧
      ∀ key ∈ (flattenAt k n).map Prod.fst, key = k ∨ ∃ suf, key = k ++ "-" ++ suf
  | k, .leaf v, _, _ => by
    constructor
    · simp [flattenAt]
    · intro key hkey
      simp only [flattenAt, List.map_cons, List.map_nil, List.mem_singleton] at hkey
      exact Or.inl hkey
  | k, .group g, hwf, hdf => by
    obtain ⟨hG, -⟩ := flattenEntries_keys g (by simpa [nodeWF] using hwf)
      (by simpa [nodeDashFree] using hdf)
    have hmap : (flattenAt k (.group g)).map Prod.fst
        = ((flattenEntries g).map Prod.fst).map
            (fun lk => if lk = "DEFAULT" then k else k ++ "-" ++ lk) := by
      simp only [flattenAt, List.map_map]
      rfl
    constructor
    · rw [hmap]
      exact hG.map (rekey_inj k)
    · intro key hkey
      rw [hmap] at hkey
      simp only [List.mem_map] at hkey
      obtain ⟨lk, -, rfl⟩ := hkey
      by_cases hlk : lk = "DEFAULT"
      · simp [hlk]
      · exact Or.inr ⟨lk, by simp [hlk]⟩

end

/-! ## Claim theorems -/

/-- Claim C1: for every RGB triple with components in [0,255], the contrast
resolver on the 6-digit hex encoding returns the dark fallback iff the WCAG
relative luminance exceeds 0.5 (and otherwise the light fallback); in
particular `rgb(255,255,255)` resolves dark and `rgb(0,0,0)` resolves light. -/
theorem claim_C1 (r g b : ℕ) (hr : r ≤ 255) (hg : g ≤ 255) (hb : b ≤ 255)
    (dark light : String) (hdl : dark ≠ light) :
    (getContrastColor dark light (hexEncode6 r g b) = dark ↔ luminance r g b > 0.5) ∧
    getContrastColor dark light "rgb(255,255,255)" = dark ∧
    getContrastColor dark light "rgb(0,0,0)" = light := by
  refine ⟨?_, ?_, ?_⟩
  · rw [getContrastColor_parsed (parseColor_hexEncode6 hr hg hb)]
    by_cases h : luminance r g b > 0.5
    · rw [if_pos h]
      exact ⟨fun _ => h, fun _ => rfl⟩
    · rw [if_neg h]
      exact ⟨fun hld => absurd hld.symm hdl, fun hL => absurd hL h⟩
  · rw [getContrastColor_parsed
      (by decide : parseColor "rgb(255,255,255)".data = some (some 255, some 255, some 255))]
    rw [if_pos (by rw [luminance_white]; norm_num)]
  · rw [getContrastColor_parsed
      (by decide : parseColor "rgb(0,0,0)".data = some (some 0, some 0, some 0))]
    rw [if_neg (by rw [luminance_black]; norm_num)]

/-- Witness for C1 at the all-white triple with distinct fallbacks. -/
theorem claim_C1_witness :
    (getContrastColor "#000000" "#ffffff" (hexEncode6 255 255 255) = "#000000" ↔
      luminance 255 255 255 > 0.5) ∧
    getContrastColor "#000000" "#ffffff" "rgb(255,255,255)" = "#000000" ∧
    getContrastColor "#000000" "#ffffff" "rgb(0,0,0)" = "#ffffff" :=
  claim_C1 255 255 255 (by decide) (by decide) (by decide) "#000000" "#ffffff" (by decide)

/-- Claim C6: the resolver treats a 3-hex-digit body exactly as its
nibble-duplicated 6-digit form, for any fallbacks: both parse to the same
integer triple, so the same branch is taken. -/
theorem claim_C6 (a b c : Char) (va vb vc : ℕ)
    (ha : hexDigitVal a = some va) (hb : hexDigitVal b = some vb)
    (hc : hexDigitVal c = some vc) (dark light : String) :
    getContrastColor dark light (String.mk ['#', a, b, c])
      = getContrastColor dark light (String.mk ['#', a, a, b, b, c, c]) := by
  have p3 : parseColor (String.mk ['#', a, b, c]).data
      = some (some ((16 * va + va : ℕ) : ℤ), some ((16 * vb + vb : ℕ) : ℤ),
          some ((16 * vc + vc : ℕ) : ℤ)) := by
    show some (jsParseInt16 [a, a], jsParseInt16 [b, b], jsParseInt16 [c, c]) = _
    rw [jsParseInt16_two_digits ha ha, jsParseInt16_two_digits hb hb,
      jsParseInt16_two_digits hc hc]
  have p6 : parseColor (String.mk ['#', a, a, b, b, c, c]).data
      = some (some ((16 * va + va : ℕ) : ℤ), some ((16 * vb + vb : ℕ) : ℤ),
          some ((16 * vc + vc : ℕ) : ℤ)) := by
    show some (jsParseInt16 [a, a], jsParseInt16 [b, b], jsParseInt16 [c, c]) = _
    rw [jsParseInt16_two_digits ha ha, jsParseInt16_two_digits hb hb,
      jsParseInt16_two_digits hc hc]
  rw [getContrastColor_parsed p3, getContrastColor_parsed p6]

/-- Witness for C6 at `#abc` versus `#aabbcc`. -/
theorem claim_C6_witness :
    getContrastColor "#000000" "#ffffff" (String.mk ['#', 'a', 'b', 'c'])
      = getContrastColor "#000000" "#ffffff" (String.mk ['#', 'a', 'a', 'b', 'b', 'c', 'c']) :=
  claim_C6 'a' 'b' 'c' 10 11 12 (by decide) (by decide) (by decide) "#000000" "#ffffff"

/-- Counterexample to C4 as stated: `"# fffff"` does not parse as 3-digit
hex, 6-digit hex or rgb()/rgba() (its first hex body character is a space),
yet the resolver returns the dark fallback, not the light one: JavaScript
`parseInt(" f", 16)` trims the space and yields 15, so the code computes the
luminance of (15, 255, 255), which exceeds 0.5. -/
theorem claim_C4_counterexample :
    specParsesColor "# fffff".data = false ∧
    getContrastColor "#000000" "#ffffff" "# fffff" = "#000000" ∧
    "#000000" ≠ "#ffffff" := by
  refine ⟨by decide, ?_, by decide⟩
  rw [getContrastColor_parsed
    (by decide : parseColor "# fffff".data = some (some 15, some 255, some 255))]
  rw [if_pos luminance_15_255_255]

/-- Claim C4 (amended): whenever the code's own parse step fails — the
channel variables stay `undefined`, or a `parseInt` yields `NaN` — the
resolver returns the light fallback unconditionally and never signals an
error; this covers `hsl()`, custom properties, named colors and malformed
hex lengths, but not every string outside the three syntactic color shapes,
since `parseInt` leniency lets some malformed hex bodies parse. -/
theorem claim_C4 (color dark light : String) (h : parseFailed color = true) :
    getContrastColor dark light color = light :=
  getContrastColor_of_parseFailed h

/-- Witness for C4 at the specification's `hsl(0,0%,0%)` example. -/
theorem claim_C4_witness :
    parseFailed "hsl(0,0%,0%)" = true ∧
    getContrastColor "#000000" "#ffffff" "hsl(0,0%,0%)" = "#ffffff" :=
  ⟨by decide, claim_C4 "hsl(0,0%,0%)" "#000000" "#ffffff" (by decide)⟩

/-- Counterexample to C3 as stated: the code's pattern is
`rgba?\((\d+),\s*(\d+),\s*(\d+)` — no whitespace is permitted after the
opening parenthesis or before a comma, and the captured components are not
confined to [0,255].  On `"rgb( 255, 255, 255)"` the specification's pattern
extracts (255,255,255) but the code's parse fails (so the resolver falls
back to light although the luminance of white is 1); and on `"rgb(999,0,0)"`
the code extracts 999 ∉ [0,255]. -/
theorem claim_C3_counterexample :
    specRgbSearch "rgb( 255, 255, 255)".data = some (255, 255, 255) ∧
    parseColor "rgb( 255, 255, 255)".data = none ∧
    getContrastColor "#000000" "#ffffff" "rgb( 255, 255, 255)" = "#ffffff" ∧
    parseColor "rgb(999,0,0)".data = some (some 999, some 0, some 0) ∧
    ¬ (999 ≤ 255) := by
  refine ⟨by decide, by decide, ?_, by decide, by decide⟩
  exact getContrastColor_of_parseFailed (by decide)

/-- Claim C3 (amended): the resolver parses `rgb()`/`rgba()` candidates via
the pattern `rgba?\((\d+),\s*(\d+),\s*(\d+)` — whitespace permitted only
after each comma, not after the opening parenthesis nor before commas —
yielding the three (unclamped) nonnegative decimal components; anything
after the third component, in particular an alpha value, is ignored. -/
theorem claim_C3 (alpha : Bool) (d1 d2 d3 ws1 ws2 rest : List Char)
    (h1 : d1 ≠ []) (h1a : ∀ c ∈ d1, isDigitChar c = true)
    (h2 : d2 ≠ []) (h2a : ∀ c ∈ d2, isDigitChar c = true)
    (h3 : d3 ≠ []) (h3a : ∀ c ∈ d3, isDigitChar c = true)
    (hw1 : ∀ c ∈ ws1, isJsWhitespace c = true) (hw2 : ∀ c ∈ ws2, isJsWhitespace c = true)
    (hrest : ∀ c, rest.head? = some c → isDigitChar c = false) :
    parseColor (rgbLead alpha ++ '(' :: (d1 ++ ',' :: (ws1 ++ (d2 ++ ',' :: (ws2 ++ (d3 ++ rest))))))
      = some (some ((decVal d1 : ℕ) : ℤ), some ((decVal d2 : ℕ) : ℤ),
          some ((decVal d3 : ℕ) : ℤ)) := by
  have ht := rgbTail_complete h1 h1a h2 h2a h3 h3a hw1 hw2 hrest
  cases alpha
  · show parseColor ('r' :: 'g' :: 'b' ::
      ('(' :: (d1 ++ ',' :: (ws1 ++ (d2 ++ ',' :: (ws2 ++ (d3 ++ rest))))))) = _
    have hsearch : rgbSearch ('r' :: 'g' :: 'b' ::
        ('(' :: (d1 ++ ',' :: (ws1 ++ (d2 ++ ',' :: (ws2 ++ (d3 ++ rest)))))))
        = some (decVal d1, decVal d2, decVal d3) := by
      rw [show rgbSearch ('r' :: 'g' :: 'b' ::
          ('(' :: (d1 ++ ',' :: (ws1 ++ (d2 ++ ',' :: (ws2 ++ (d3 ++ rest)))))))
          = match rgbMatchAt ('r' :: 'g' :: 'b' ::
              ('(' :: (d1 ++ ',' :: (ws1 ++ (d2 ++ ',' :: (ws2 ++ (d3 ++ rest))))))) with
            | some t => some t
            | none => rgbSearch ('g' :: 'b' ::
                ('(' :: (d1 ++ ',' :: (ws1 ++ (d2 ++ ',' :: (ws2 ++ (d3 ++ rest)))))))
          from rfl]
      rw [rgbMatchAt_rgb, ht]
    simp only [parseColor, hsearch]
  · show parseColor ('r' :: 'g' :: 'b' :: 'a' ::
      ('(' :: (d1 ++ ',' :: (ws1 ++ (d2 ++ ',' :: (ws2 ++ (d3 ++ rest))))))) = _
    have hsearch : rgbSearch ('r' :: 'g' :: 'b' :: 'a' ::
        ('(' :: (d1 ++ ',' :: (ws1 ++ (d2 ++ ',' :: (ws2 ++ (d3 ++ rest)))))))
        = some (decVal d1, decVal d2, decVal d3) := by
      rw [show rgbSearch ('r' :: 'g' :: 'b' :: 'a' ::
          ('(' :: (d1 ++ ',' :: (ws1 ++ (d2 ++ ',' :: (ws2 ++ (d3 ++ rest)))))))
          = match rgbMatchAt ('r' :: 'g' :: 'b' :: 'a' ::
              ('(' :: (d1 ++ ',' :: (ws1 ++ (d2 ++ ',' :: (ws2 ++ (d3 ++ rest))))))) with
            | some t => some t
            | none => rgbSearch ('g' :: 'b' :: 'a' ::
                ('(' :: (d1 ++ ',' :: (ws1 ++ (d2 ++ ',' :: (ws2 ++ (d3 ++ rest)))))))
          from rfl]
      rw [rgbMatchAt_rgba, ht]
    simp only [parseColor, hsearch]

/-- Witness for C3 on `rgb(255, 255, 255)` (whitespace after the commas). -/
theorem claim_C3_witness :
    parseColor (rgbLead false ++ '(' :: (['2', '5', '5'] ++ ',' :: ([' '] ++
        (['2', '5', '5'] ++ ',' :: ([' '] ++ (['2', '5', '5'] ++ [')']))))))
      = some (some 255, some 255, some 255) :=
  claim_C3 false ['2', '5', '5'] ['2', '5', '5'] ['2', '5', '5'] [' '] [' '] [')']
    (by decide) (by decide) (by decide) (by decide) (by decide) (by decide)
    (by decide) (by decide) (by decide)

/-- Claim C2: when the theme's colors contain group `name` with a (truthy)
color at key `shade`, the solid rule on `button-<name>-<shade>` returns the
property mapping with `background-color` and `border-color` equal to the
looked-up color, and a text color chosen purely by the numeric threshold on
the shade (≤ 400 dark fallback, otherwise light fallback) — the parsed
luminance of the color never enters. -/
theorem claim_C2 (c g : ColorEntries) (name shade : List Char) (n : ColorNode)
    (hn : name ≠ []) (hna : ∀ ch ∈ name, isLowerAlpha ch = true)
    (hs : shade ≠ []) (hsa : ∀ ch ∈ shade, isDigitChar ch = true)
    (hlook : c.lookup (String.mk name) = some (.group g))
    (hshade : g.lookup (String.mk shade) = some n) (htruthy : n.truthy = true) :
    solidRule ⟨some c⟩ (String.mk (solidLead ++ (name ++ '-' :: shade)))
      = some (.props
        [("color", if decVal shade ≤ 400 then darkTextColor c else lightTextColor c),
         ("border-color", n), ("background-color", n)]) := by
  unfold solidRule
  rw [show (String.mk (solidLead ++ (name ++ '-' :: shade))).data
      = solidLead ++ (name ++ '-' :: shade) from rfl]
  rw [matchSolid_complete hn hna hs hsa]
  exact solidButtonResolver_found hlook hshade htruthy

/-- Witness for C2: `button-blue-500` with `{colors:{blue:{500:"#112233"}}}`
takes the light-text branch since 500 > 400. -/
theorem claim_C2_witness :
    solidRule ⟨some exampleColors⟩
        (String.mk (solidLead ++ (['b', 'l', 'u', 'e'] ++ '-' :: ['5', '0', '0'])))
      = some (.props
        [("color", if decVal ['5', '0', '0'] ≤ 400 then darkTextColor exampleColors
            else lightTextColor exampleColors),
         ("border-color", .leaf (.str "#112233")), ("background-color", .leaf (.str "#112233"))]) :=
  claim_C2 exampleColors (.cons "500" (.leaf (.str "#112233")) .nil)
    ['b', 'l', 'u', 'e'] ['5', '0', '0'] (.leaf (.str "#112233"))
    (by decide) (by decide) (by decide) (by decide) (by decide) (by decide) (by decide)

/-- Claim C7: an unresolved group name or shade makes both named rules
return the no-match sentinel (`undefined`, embedded as `none`), which is
distinct from every valid output; no error is raised. -/
theorem claim_C7 (c : ColorEntries) (sel name shade : String)
    (h : c.lookup name = none ∨
      ∃ g, c.lookup name = some (.group g) ∧ g.lookup shade = none) :
    solidButtonResolver ⟨some c⟩ name shade = none ∧
    ghostButtonResolver ⟨some c⟩ sel name shade = none ∧
    ∀ r : RuleResult, (none : Option RuleResult) ≠ some r :=
  ⟨solidButtonResolver_missing h, ghostButtonResolver_missing h,
    fun _ h' => Option.noConfusion h'⟩

/-- Witness for C7: `button-blue-999` when shade 999 is absent. -/
theorem claim_C7_witness :
    solidButtonResolver ⟨some exampleColors⟩ "blue" "999" = none ∧
    ghostButtonResolver ⟨some exampleColors⟩ "button-ghost-blue-999" "blue" "999" = none ∧
    ∀ r : RuleResult, (none : Option RuleResult) ≠ some r :=
  claim_C7 exampleColors "button-ghost-blue-999" "blue" "999"
    (Or.inr ⟨.cons "500" (.leaf (.str "#112233")) .nil, by decide, by decide⟩)

/-- Claim C8: a matched ghost candidate with a successful (truthy) lookup
returns a literal CSS rule-block string — never a property mapping — whose
base selector has transparent background and the looked-up color as text and
border color, and whose `:hover`/`:focus` selectors fill the background with
that color and use the threshold-chosen hover text color. -/
theorem claim_C8 (c g : ColorEntries) (sel : String) (name shade : List Char) (n : ColorNode)
    (hn : name ≠ []) (hna : ∀ ch ∈ name, isLowerAlpha ch = true)
    (hs : shade ≠ []) (hsa : ∀ ch ∈ shade, isDigitChar ch = true)
    (hlook : c.lookup (String.mk name) = some (.group g))
    (hshade : g.lookup (String.mk shade) = some n) (htruthy : n.truthy = true) :
    ghostRule ⟨some c⟩ sel (String.mk (ghostLead ++ (name ++ '-' :: shade)))
      = some (.css (ghostCss sel n.toJsString n.toJsString
          (if decVal shade ≤ 400 then darkTextColor c else lightTextColor c).toJsString)) ∧
    ∀ ps : List (String × ColorNode),
      RuleResult.css (ghostCss sel n.toJsString n.toJsString
          (if decVal shade ≤ 400 then darkTextColor c else lightTextColor c).toJsString)
        ≠ RuleResult.props ps := by
  constructor
  · unfold ghostRule
    rw [show (String.mk (ghostLead ++ (name ++ '-' :: shade))).data
        = ghostLead ++ (name ++ '-' :: shade) from rfl]
    rw [matchGhost_complete hn hna hs hsa]
    exact ghostButtonResolver_found hlook hshade htruthy
  · exact fun _ h' => RuleResult.noConfusion h'

/-- Witness for C8: `button-ghost-blue-500` with the example theme. -/
theorem claim_C8_witness :
    ghostRule ⟨some exampleColors⟩ "button-ghost-blue-500"
        (String.mk (ghostLead ++ (['b', 'l', 'u', 'e'] ++ '-' :: ['5', '0', '0'])))
      = some (.css (ghostCss "button-ghost-blue-500"
          (ColorNode.leaf (.str "#112233")).toJsString
          (ColorNode.leaf (.str "#112233")).toJsString
          (if decVal ['5', '0', '0'] ≤ 400 then darkTextColor exampleColors
            else lightTextColor exampleColors).toJsString)) ∧
    ∀ ps : List (String × ColorNode),
      RuleResult.css (ghostCss "button-ghost-blue-500"
          (ColorNode.leaf (.str "#112233")).toJsString
          (ColorNode.leaf (.str "#112233")).toJsString
          (if decVal ['5', '0', '0'] ≤ 400 then darkTextColor exampleColors
            else lightTextColor exampleColors).toJsString)
        ≠ RuleResult.props ps :=
  claim_C8 exampleColors (.cons "500" (.leaf (.str "#112233")) .nil)
    "button-ghost-blue-500" ['b', 'l', 'u', 'e'] ['5', '0', '0'] (.leaf (.str "#112233"))
    (by decide) (by decide) (by decide) (by decide) (by decide) (by decide) (by decide)

/-- Claim C9: a shade key that is present but holds a falsy value (such as
`""` or `0`) is treated by both named rules exactly like an absent shade,
because presence is tested with the truthiness check `!colorGroup[shade]`. -/
theorem claim_C9 (c g : ColorEntries) (sel name shade : String) (v : ColorNode)
    (hlook : c.lookup name = some (.group g)) (hshade : g.lookup shade = some v)
    (hfal : v.truthy = false) :
    solidButtonResolver ⟨some c⟩ name shade = none ∧
    ghostButtonResolver ⟨some c⟩ sel name shade = none :=
  ⟨solidButtonResolver_falsy hlook hshade hfal, ghostButtonResolver_falsy hlook hshade hfal⟩

/-- Witness for C9 with the empty string and the number 0 as stored values. -/
theorem claim_C9_witness :
    (solidButtonResolver ⟨some falsyStrColors⟩ "blue" "500" = none ∧
      ghostButtonResolver ⟨some falsyStrColors⟩ "sel" "blue" "500" = none) ∧
    (solidButtonResolver ⟨some falsyNumColors⟩ "blue" "500" = none ∧
      ghostButtonResolver ⟨some falsyNumColors⟩ "sel" "blue" "500" = none) :=
  ⟨claim_C9 falsyStrColors (.cons "500" (.leaf (.str "")) .nil) "sel" "blue" "500"
      (.leaf (.str "")) (by decide) (by decide) (by decide),
   claim_C9 falsyNumColors (.cons "500" (.leaf (.num 0)) .nil) "sel" "blue" "500"
      (.leaf (.num 0)) (by decide) (by decide) (by decide)⟩

/-- Claim C10: the four rule patterns are pairwise mutually exclusive — for
every candidate class name at most one of them matches, so first-match-wins
dispatch over the rules list does not depend on declaration order. -/
theorem claim_C10 (s : String) : ruleMatchCount s ≤ 1 := by
  unfold ruleMatchCount
  rcases h1 : matchSolid s.data with - | x1 <;>
    rcases h2 : matchGhost s.data with - | x2 <;>
    rcases h3 : matchBracket s.data with - | x3 <;>
    rcases h4 : matchGhostBracket s.data with - | x4 <;>
    simp only [h1, h2, h3, h4, Option.isSome_some, Option.isSome_none,
      Bool.false_eq_true, if_false, if_true] <;>
    first
    | omega
    | exact (excl_solid_ghost h1 h2).elim
    | exact (excl_solid_bracket h1 h3).elim
    | exact (excl_solid_gbracket h1 h4).elim
    | exact (excl_ghost_bracket h2 h3).elim
    | exact (excl_ghost_gbracket h2 h4).elim
    | exact (excl_bracket_gbracket h3 h4).elim

/-- Counterexample to C5 as stated: the acyclic, well-formed theme
`{a: {b: "#1"}, "a-b": "#2"}` flattens to two entries that share the key
`"a-b"`, so the output can contain duplicate keys. -/
theorem claim_C5_counterexample :
    entriesWF dupKeyTree = true ∧
    flattenEntries dupKeyTree = [("a-b", .str "#1"), ("a-b", .str "#2")] ∧
    ¬ ((flattenEntries dupKeyTree).map Prod.fst).Nodup := by
  refine ⟨by decide, by decide, by decide⟩

/-- Claim C5 (amended): flattening maps `{a: {b: "#fff", DEFAULT: "#000"}}`
to `{"a-b": "#fff", "a": "#000"}` (a `DEFAULT` leaf collapses to the bare
group key), maps the empty tree to the empty map, and produces no duplicate
keys for a well-formed (distinct keys per object, inherently acyclic) tree
provided no key contains a dash — dashes in keys can make distinct paths
collide, as the counterexample shows. -/
theorem claim_C5 :
    flattenEntries exampleNested = [("a-b", .str "#fff"), ("a", .str "#000")] ∧
    flattenEntries .nil = [] ∧
    ∀ t : ColorEntries, entriesWF t = true → entriesDashFree t = true →
      ((flattenEntries t).map Prod.fst).Nodup := by
  refine ⟨by decide, rfl, ?_⟩
  intro t hwf hdf
  exact (flattenEntries_keys t hwf hdf).1

/-- Witness for C5's uniqueness clause on the specification's example tree. -/
theorem claim_C5_witness :
    entriesWF exampleNested = true ∧ entriesDashFree exampleNested = true ∧
    ((flattenEntries exampleNested).map Prod.fst).Nodup :=
  ⟨by decide, by decide, claim_C5.2.2 exampleNested (by decide) (by decide)⟩
